import Mathlib

/-!
Verification of the loan-application chaincode handler (src/main.go).

The Go source is shallowly embedded: each handler function becomes a Lean
function over an explicit stub state, the JSON codec used by the handlers is
modelled over lists of characters, and the Hyperledger shim (the "Ledger
Gateway" of the spec, an external collaborator that is not part of this
repository) is modelled from the spec's interface contract (spec section 4.3).
-/

namespace Chaincode

/-! ## Character-list utilities -/

/-- Boolean prefix test on character lists. -/
def leadsWith : List Char → List Char → Bool
  | [], _ => true
  | _ :: _, [] => false
  | a :: as, b :: bs => a = b && leadsWith as bs

/-- Boolean contiguous-subsequence (substring) test on character lists. -/
def containsSeq (needle : List Char) : List Char → Bool
  | [] => needle.isEmpty
  | c :: rest => leadsWith needle (c :: rest) || containsSeq needle rest

theorem leadsWith_append (m s : List Char) : leadsWith m (m ++ s) = true := by
  induction m with
  | nil => rfl
  | cons a as ih => simp [leadsWith, ih]

theorem containsSeq_append_left (m s : List Char) : containsSeq m (m ++ s) = true := by
  cases m with
  | nil =>
    cases s with
    | nil => rfl
    | cons c cs => simp [containsSeq, leadsWith]
  | cons a as =>
    have h := leadsWith_append (a :: as) s
    simp only [List.cons_append] at h ⊢
    simp [containsSeq, h]

theorem containsSeq_middle (p m s : List Char) : containsSeq m (p ++ (m ++ s)) = true := by
  induction p with
  | nil => simpa using containsSeq_append_left m s
  | cons c cs ih => simp [containsSeq, ih]

/-! ## Decimal numerals (the integer part of the JSON codec)

Go's `encoding/json` writes an `int` in plain decimal notation.  The printer
below is fuel-based so that it reduces inside the kernel; fuel `n + 1` is
always enough for the digits of `n`. -/

/-- Numeric value of a decimal digit character. -/
def digitVal (c : Char) : Nat := c.toNat - 48

/-- Little-endian decimal digits of `n` (least significant first), with fuel. -/
def natDigRev (fuel n : Nat) : List Char :=
  match fuel with
  | 0 => []
  | fuel + 1 =>
    if n < 10 then [Nat.digitChar n]
    else Nat.digitChar (n % 10) :: natDigRev fuel (n / 10)

/-- Decimal digit characters of `n`, most significant first. -/
def natChars (n : Nat) : List Char := (natDigRev (n + 1) n).reverse

/-- Decimal rendering of an integer, as Go's `encoding/json` writes an `int`. -/
def intChars (i : Int) : List Char :=
  if i < 0 then '-' :: natChars i.natAbs else natChars i.natAbs

/-- Value of a little-endian digit-character list. -/
def valLE : List Char → Nat
  | [] => 0
  | c :: cs => 10 * valLE cs + digitVal c

theorem digitChar_isDigit (d : Nat) (h : d < 10) : (Nat.digitChar d).isDigit = true := by
  interval_cases d <;> decide

theorem digitVal_digitChar (d : Nat) (h : d < 10) : digitVal (Nat.digitChar d) = d := by
  interval_cases d <;> decide

theorem natDigRev_ne_nil (fuel n : Nat) (h : n < fuel) : natDigRev fuel n ≠ [] := by
  cases fuel with
  | zero => omega
  | succ fuel =>
    by_cases h10 : n < 10 <;> simp [natDigRev, h10]

theorem natDigRev_digits (fuel n : Nat) (h : n < fuel) :
    ∀ c ∈ natDigRev fuel n, c.isDigit = true := by
  induction fuel generalizing n with
  | zero => omega
  | succ fuel ih =>
    by_cases h10 : n < 10
    · simp [natDigRev, h10, digitChar_isDigit n h10]
    · have hd : n / 10 < fuel := by omega
      intro c hc
      simp only [natDigRev, h10, if_false, List.mem_cons] at hc
      rcases hc with hc | hc
      · subst hc; exact digitChar_isDigit (n % 10) (Nat.mod_lt n (by omega))
      · exact ih (n / 10) hd c hc

theorem valLE_natDigRev (fuel n : Nat) (h : n < fuel) : valLE (natDigRev fuel n) = n := by
  induction fuel generalizing n with
  | zero => omega
  | succ fuel ih =>
    by_cases h10 : n < 10
    · simp [natDigRev, h10, valLE, digitVal_digitChar n h10]
    · have hd : n / 10 < fuel := by omega
      have hm : n % 10 < 10 := Nat.mod_lt n (by omega)
      simp [natDigRev, h10, valLE, ih (n / 10) hd, digitVal_digitChar (n % 10) hm]
      omega

theorem natChars_ne_nil (n : Nat) : natChars n ≠ [] := by
  have h := natDigRev_ne_nil (n + 1) n (by omega)
  simp [natChars]
  intro hrev
  exact h hrev

theorem natChars_digits (n : Nat) : ∀ c ∈ natChars n, c.isDigit = true := by
  intro c hc
  exact natDigRev_digits (n + 1) n (by omega) c (by simpa [natChars] using hc)

/-! ## Quoted JSON strings

The handlers only ever decode what a well-formed record encoder produced, so
the string codec is modelled on the escape-free fragment: for strings free of
quotes, backslashes, control characters and the characters Go's encoder
HTML-escapes, Go writes exactly `"` ++ the characters ++ `"`, and that is what
is modelled here.  `goodChar`/`plainS` delimit that fragment. -/

/-- Characters that Go's JSON encoder copies verbatim into a quoted string. -/
def goodChar (c : Char) : Bool :=
  c ≠ '\x22' && c ≠ '\\' && 32 ≤ c.toNat && c ≠ '<' && c ≠ '>' && c ≠ '&'

/-- A string all of whose characters are copied verbatim by the encoder. -/
def plainS (s : String) : Bool := s.data.all goodChar

/-- The characters of a quoted JSON string literal. -/
def quoteChars (s : String) : List Char := '\x22' :: (s.data ++ ['\x22'])

/-- Characters up to the closing quote, and the remainder after it. -/
def takeToQuote : List Char → Option (List Char × List Char)
  | [] => none
  | c :: cs =>
    if c = '\x22' then some ([], cs)
    else
      match takeToQuote cs with
      | some p => some (c :: p.1, p.2)
      | none => none

/-- Parse a quoted JSON string, returning it and the remaining input. -/
def parseQStr (cs : List Char) : Option (String × List Char) :=
  match cs with
  | [] => none
  | c :: cs' =>
    if c = '\x22' then (takeToQuote cs').map (fun p => (String.mk p.1, p.2)) else none

theorem takeToQuote_append (s rest : List Char) (h : ∀ c ∈ s, ¬c = '\x22') :
    takeToQuote (s ++ ('\x22' :: rest)) = some (s, rest) := by
  induction s with
  | nil => simp [takeToQuote]
  | cons c cs ih =>
    have hc : ¬c = '\x22' := h c (by simp)
    have ihh := ih (fun c hc => h c (by simp [hc]))
    simp [takeToQuote, hc, ihh]

theorem parseQStr_quoteChars (s : String) (h : plainS s = true) (rest : List Char) :
    parseQStr (quoteChars s ++ rest) = some (s, rest) := by
  have hq : ∀ c ∈ s.data, ¬c = '\x22' := by
    intro c hc
    have := (List.all_eq_true.mp h) c hc
    simp [goodChar] at this
    exact this.1.1.1.1.1
  have ht := takeToQuote_append s.data rest hq
  simp only [quoteChars, List.cons_append, List.append_assoc, List.cons_append]
  simp [parseQStr, ht]

/-! ## Parsing decimal integers -/

/-- Split a leading run of digit characters from the input. -/
def spanDigits : List Char → List Char × List Char
  | [] => ([], [])
  | c :: cs =>
    if c.isDigit then
      let p := spanDigits cs
      (c :: p.1, p.2)
    else ([], c :: cs)

/-- Parse a nonempty run of decimal digits as a natural number. -/
def parseNat (cs : List Char) : Option (Nat × List Char) :=
  match spanDigits cs with
  | ([], _) => none
  | (ds, rest) => some (ds.foldl (fun a c => 10 * a + digitVal c) 0, rest)

/-- Parse a JSON integer (optional leading minus sign, then digits). -/
def parseInt (cs : List Char) : Option (Int × List Char) :=
  match cs with
  | [] => none
  | c :: cs' =>
    if c = '-' then (parseNat cs').map (fun p => (-(p.1 : Int), p.2))
    else (parseNat (c :: cs')).map (fun p => ((p.1 : Int), p.2))

/-- True when the input does not begin with a digit character. -/
def headNotDigit (cs : List Char) : Bool :=
  match cs with
  | [] => true
  | c :: _ => !c.isDigit

theorem spanDigits_append (ds rest : List Char) (hds : ∀ c ∈ ds, c.isDigit = true)
    (hrest : headNotDigit rest = true) : spanDigits (ds ++ rest) = (ds, rest) := by
  induction ds with
  | nil =>
    cases rest with
    | nil => rfl
    | cons c cs =>
      simp only [headNotDigit, Bool.not_eq_true'] at hrest
      simp [spanDigits, hrest]
  | cons d ds ih =>
    have hd : d.isDigit = true := hds d (by simp)
    have ihh := ih (fun c hc => hds c (by simp [hc]))
    simp [spanDigits, hd, ihh]

theorem foldl_eq_valLE (l : List Char) :
    l.reverse.foldl (fun a c => 10 * a + digitVal c) 0 = valLE l := by
  rw [List.foldl_reverse]
  induction l with
  | nil => rfl
  | cons c cs ih => simp [List.foldr_cons, valLE, ih]

theorem parseNat_natChars (n : Nat) (rest : List Char) (hrest : headNotDigit rest = true) :
    parseNat (natChars n ++ rest) = some (n, rest) := by
  have hspan := spanDigits_append (natChars n) rest (natChars_digits n) hrest
  have hne := natChars_ne_nil n
  have hval : (natChars n).foldl (fun a c => 10 * a + digitVal c) 0 = n := by
    have := foldl_eq_valLE (natDigRev (n + 1) n)
    simpa [natChars, valLE_natDigRev (n + 1) n (by omega)] using this
  cases hnc : natChars n with
  | nil => exact absurd hnc hne
  | cons c cs =>
    rw [hnc] at hspan hval
    simp only [List.cons_append] at hspan
    simp [parseNat, hspan, hval]

theorem isDigit_ne_minus (c : Char) (h : c.isDigit = true) : ¬c = '-' := by
  intro hc
  subst hc
  simp [Char.isDigit] at h

theorem parseInt_intChars (i : Int) (rest : List Char) (hrest : headNotDigit rest = true) :
    parseInt (intChars i ++ rest) = some (i, rest) := by
  by_cases hneg : i < 0
  · have habs : ((i.natAbs : Nat) : Int) = -i := by omega
    simp only [intChars, if_pos hneg, List.cons_append]
    simp [parseInt, parseNat_natChars i.natAbs rest hrest, habs]
  · have habs : ((i.natAbs : Nat) : Int) = i := by omega
    simp only [intChars, if_neg hneg]
    cases hnc : natChars i.natAbs with
    | nil => exact absurd hnc (natChars_ne_nil i.natAbs)
    | cons c cs =>
      have hcd : c.isDigit = true := natChars_digits i.natAbs c (by simp [hnc])
      have hcm : ¬c = '-' := isDigit_ne_minus c hcd
      have hp := parseNat_natChars i.natAbs rest hrest
      rw [hnc] at hp
      simp only [List.cons_append] at hp ⊢
      refine Eq.trans ?_ (congrArg (fun z => some (z, rest)) habs)
      simp [parseInt, hcm, hp]

/-! ## The record schema (src/main.go lines 13-46) -/

/-- PersonalInfo schema (src/main.go lines 14-20). -/
structure PersonalInfo where
  Firstname : String
  Lastname : String
  DOB : String
  Email : String
  Mobile : String
deriving DecidableEq

/-- FinancialInfo schema (src/main.go lines 23-28).  Go `int` is modelled as
`Int`; the handlers never overflow it. -/
structure FinancialInfo where
  MonthlySalary : Int
  MonthlyRent : Int
  OtherExpenditure : Int
  MonthlyLoanPayment : Int
deriving DecidableEq

/-- LoanApplication schema (src/main.go lines 31-46). -/
structure LoanApplication where
  ID : String
  PropertyID : String
  LandID : String
  PermitID : String
  BuyerID : String
  SalesContractID : String
  PersonalInfo : PersonalInfo
  FinancialInfo : FinancialInfo
  Status : String
  RequestedAmount : Int
  FairMarketValue : Int
  ApprovedAmount : Int
  ReviewerID : String
  LastModifiedDate : String
deriving DecidableEq

/-- The Go zero value of `PersonalInfo`. -/
def zeroPersonalInfo : PersonalInfo := ⟨"", "", "", "", ""⟩

/-- The Go zero value of `FinancialInfo`. -/
def zeroFinancialInfo : FinancialInfo := ⟨0, 0, 0, 0⟩

/-- The Go zero value of `LoanApplication` (the value `var loanApplication`
declares at src/main.go line 160 before unmarshalling). -/
def zeroLoanApplication : LoanApplication :=
  ⟨"", "", "", "", "", "", zeroPersonalInfo, zeroFinancialInfo, "", 0, 0, 0, "", ""⟩

/-! ## JSON literals of the record encoding

Key names and order follow the struct tags of src/main.go; Go's
`encoding/json` writes struct fields in declaration order with no spacing. -/

def litLAopen : List Char := "\x7b\x22id\x22:".data
def litProp : List Char := ",\x22PropertyID\x22:".data
def litLand : List Char := ",\x22LandID\x22:".data
def litPermit : List Char := ",\x22PermitID\x22:".data
def litBuyer : List Char := ",\x22BuyerID\x22:".data
def litSales : List Char := ",\x22SalesContractID\x22:".data
def litPers : List Char := ",\x22personalInfo\x22:".data
def litFin : List Char := ",\x22financialInfo\x22:".data
def litStatus : List Char := ",\x22status\x22:".data
def litReq : List Char := ",\x22requestedAmount\x22:".data
def litFair : List Char := ",\x22fairMarketValue\x22:".data
def litAppr : List Char := ",\x22approvedAmount\x22:".data
def litRev : List Char := ",\x22ReviewerID\x22:".data
def litLast : List Char := ",\x22lastModifiedDate\x22:".data
def litPIopen : List Char := "\x7b\x22firstname\x22:".data
def litLastname : List Char := ",\x22lastname\x22:".data
def litDOB : List Char := ",\x22DOB\x22:".data
def litEmail : List Char := ",\x22email\x22:".data
def litMobile : List Char := ",\x22mobile\x22:".data
def litFIopen : List Char := "\x7b\x22monthlySalary\x22:".data
def litRent : List Char := ",\x22monthlyRent\x22:".data
def litOther : List Char := ",\x22otherExpenditure\x22:".data
def litLoanPay : List Char := ",\x22monthlyLoanPayment\x22:".data
def litRB : List Char := "\x7d".data

/-! ## The encoder (Go `json.Marshal` on these structs) -/

/-- Characters `json.Marshal` writes for a `PersonalInfo` value. -/
def piChars (p : PersonalInfo) : List Char :=
  litPIopen ++ quoteChars p.Firstname ++ litLastname ++ quoteChars p.Lastname ++
    litDOB ++ quoteChars p.DOB ++ litEmail ++ quoteChars p.Email ++
    litMobile ++ quoteChars p.Mobile ++ litRB

/-- Characters `json.Marshal` writes for a `FinancialInfo` value. -/
def fiChars (f : FinancialInfo) : List Char :=
  litFIopen ++ intChars f.MonthlySalary ++ litRent ++ intChars f.MonthlyRent ++
    litOther ++ intChars f.OtherExpenditure ++ litLoanPay ++ intChars f.MonthlyLoanPayment ++ litRB

/-- Characters `json.Marshal` writes for a `LoanApplication` value. -/
def laChars (r : LoanApplication) : List Char :=
  litLAopen ++ quoteChars r.ID ++ litProp ++ quoteChars r.PropertyID ++
    litLand ++ quoteChars r.LandID ++ litPermit ++ quoteChars r.PermitID ++
    litBuyer ++ quoteChars r.BuyerID ++ litSales ++ quoteChars r.SalesContractID ++
    litPers ++ piChars r.PersonalInfo ++ litFin ++ fiChars r.FinancialInfo ++
    litStatus ++ quoteChars r.Status ++ litReq ++ intChars r.RequestedAmount ++
    litFair ++ intChars r.FairMarketValue ++ litAppr ++ intChars r.ApprovedAmount ++
    litRev ++ quoteChars r.ReviewerID ++ litLast ++ quoteChars r.LastModifiedDate ++ litRB

/-- `json.Marshal` of a `LoanApplication` (src/main.go line 164); it never
fails for these in-memory values, so it is total here. -/
def marshal (r : LoanApplication) : String := String.mk (laChars r)

/-! ## The decoder (Go `json.Unmarshal` into `LoanApplication`)

Modelled on the canonical encoding: the decoder accepts exactly the texts the
encoder produces.  Go's decoder additionally tolerates whitespace, reordered
or missing keys and escape sequences; the handlers only ever decode what the
encoder (or an equivalent client) produced, and every theorem that relies on
this decoder stays inside the canonical fragment. -/

/-- Consume an expected literal. -/
def dropLit : List Char → List Char → Option (List Char)
  | [], cs => some cs
  | _ :: _, [] => none
  | l :: ls, c :: cs => if c = l then dropLit ls cs else none

theorem dropLit_append (l rest : List Char) : dropLit l (l ++ rest) = some rest := by
  induction l with
  | nil => rfl
  | cons c cs ih => simp [dropLit, ih]

/-- Parse a string field introduced by its literal key text. -/
def pStrField (lit cs : List Char) : Option (String × List Char) :=
  (dropLit lit cs).bind parseQStr

/-- Parse an integer field introduced by its literal key text. -/
def pIntField (lit cs : List Char) : Option (Int × List Char) :=
  (dropLit lit cs).bind parseInt

/-- Parse the encoding of a `PersonalInfo`. -/
def pPI (cs : List Char) : Option (PersonalInfo × List Char) :=
  (pStrField litPIopen cs).bind fun p1 =>
  (pStrField litLastname p1.2).bind fun p2 =>
  (pStrField litDOB p2.2).bind fun p3 =>
  (pStrField litEmail p3.2).bind fun p4 =>
  (pStrField litMobile p4.2).bind fun p5 =>
  (dropLit litRB p5.2).bind fun cs =>
  some (⟨p1.1, p2.1, p3.1, p4.1, p5.1⟩, cs)

/-- Parse the encoding of a `FinancialInfo`. -/
def pFI (cs : List Char) : Option (FinancialInfo × List Char) :=
  (pIntField litFIopen cs).bind fun n1 =>
  (pIntField litRent n1.2).bind fun n2 =>
  (pIntField litOther n2.2).bind fun n3 =>
  (pIntField litLoanPay n3.2).bind fun n4 =>
  (dropLit litRB n4.2).bind fun cs =>
  some (⟨n1.1, n2.1, n3.1, n4.1⟩, cs)

/-- Parse the six leading identifier fields of a `LoanApplication`. -/
def pLAids (cs : List Char) :
    Option ((String × String × String × String × String × String) × List Char) :=
  (pStrField litLAopen cs).bind fun p1 =>
  (pStrField litProp p1.2).bind fun p2 =>
  (pStrField litLand p2.2).bind fun p3 =>
  (pStrField litPermit p3.2).bind fun p4 =>
  (pStrField litBuyer p4.2).bind fun p5 =>
  (pStrField litSales p5.2).bind fun p6 =>
  some ((p1.1, p2.1, p3.1, p4.1, p5.1, p6.1), p6.2)

/-- Parse the two embedded value objects of a `LoanApplication`. -/
def pLAinfos (cs : List Char) : Option ((PersonalInfo × FinancialInfo) × List Char) :=
  (dropLit litPers cs).bind fun cs =>
  (pPI cs).bind fun pi =>
  (dropLit litFin pi.2).bind fun cs =>
  (pFI cs).bind fun fi =>
  some ((pi.1, fi.1), fi.2)

/-- Parse the status and the three amount fields of a `LoanApplication`. -/
def pLAamounts (cs : List Char) : Option ((String × Int × Int × Int) × List Char) :=
  (pStrField litStatus cs).bind fun p1 =>
  (pIntField litReq p1.2).bind fun n1 =>
  (pIntField litFair n1.2).bind fun n2 =>
  (pIntField litAppr n2.2).bind fun n3 =>
  some ((p1.1, n1.1, n2.1, n3.1), n3.2)

/-- Parse the two trailing string fields and the closing brace. -/
def pLAtail (cs : List Char) : Option ((String × String) × List Char) :=
  (pStrField litRev cs).bind fun p1 =>
  (pStrField litLast p1.2).bind fun p2 =>
  (dropLit litRB p2.2).bind fun cs =>
  some ((p1.1, p2.1), cs)

/-- Parse the encoding of a `LoanApplication`. -/
def pLA (cs : List Char) : Option (LoanApplication × List Char) :=
  (pLAids cs).bind fun a =>
  (pLAinfos a.2).bind fun b =>
  (pLAamounts b.2).bind fun c =>
  (pLAtail c.2).bind fun d =>
  some (⟨a.1.1, a.1.2.1, a.1.2.2.1, a.1.2.2.2.1, a.1.2.2.2.2.1, a.1.2.2.2.2.2,
    b.1.1, b.1.2, c.1.1, c.1.2.1, c.1.2.2.1, c.1.2.2.2, d.1.1, d.1.2⟩, d.2)

/-- `json.Unmarshal` of a `LoanApplication` (src/main.go line 161): `none`
models a decode error. -/
def unmarshal (s : String) : Option LoanApplication :=
  match pLA s.data with
  | some (r, []) => some r
  | _ => none

/-! ## Round trip of the codec -/

theorem headNotDigit_litRent (l : List Char) : headNotDigit (litRent ++ l) = true := rfl
theorem headNotDigit_litOther (l : List Char) : headNotDigit (litOther ++ l) = true := rfl
theorem headNotDigit_litLoanPay (l : List Char) : headNotDigit (litLoanPay ++ l) = true := rfl
theorem headNotDigit_litRB (l : List Char) : headNotDigit (litRB ++ l) = true := rfl
theorem headNotDigit_litFair (l : List Char) : headNotDigit (litFair ++ l) = true := rfl
theorem headNotDigit_litAppr (l : List Char) : headNotDigit (litAppr ++ l) = true := rfl
theorem headNotDigit_litRev (l : List Char) : headNotDigit (litRev ++ l) = true := rfl

theorem pStrField_append (s : String) (h : plainS s = true) (lit rest : List Char) :
    pStrField lit (lit ++ (quoteChars s ++ rest)) = some (s, rest) := by
  simp [pStrField, dropLit_append, parseQStr_quoteChars s h]

theorem pIntField_append (i : Int) (lit rest : List Char) (hrest : headNotDigit rest = true) :
    pIntField lit (lit ++ (intChars i ++ rest)) = some (i, rest) := by
  simp [pIntField, dropLit_append, parseInt_intChars i rest hrest]

theorem pPI_piChars (p : PersonalInfo)
    (h1 : plainS p.Firstname = true) (h2 : plainS p.Lastname = true)
    (h3 : plainS p.DOB = true) (h4 : plainS p.Email = true)
    (h5 : plainS p.Mobile = true) (rest : List Char) :
    pPI (piChars p ++ rest) = some (p, rest) := by
  simp [pPI, piChars, List.append_assoc, dropLit_append,
    pStrField_append p.Firstname h1, pStrField_append p.Lastname h2,
    pStrField_append p.DOB h3, pStrField_append p.Email h4,
    pStrField_append p.Mobile h5]

theorem pFI_fiChars (f : FinancialInfo) (rest : List Char) :
    pFI (fiChars f ++ rest) = some (f, rest) := by
  simp [pFI, fiChars, List.append_assoc, dropLit_append, pIntField_append,
    headNotDigit_litRent, headNotDigit_litOther, headNotDigit_litLoanPay,
    headNotDigit_litRB]

theorem pLAids_append (s1 s2 s3 s4 s5 s6 : String)
    (h1 : plainS s1 = true) (h2 : plainS s2 = true) (h3 : plainS s3 = true)
    (h4 : plainS s4 = true) (h5 : plainS s5 = true) (h6 : plainS s6 = true)
    (rest : List Char) :
    pLAids (litLAopen ++ (quoteChars s1 ++ (litProp ++ (quoteChars s2 ++
      (litLand ++ (quoteChars s3 ++ (litPermit ++ (quoteChars s4 ++
      (litBuyer ++ (quoteChars s5 ++ (litSales ++ (quoteChars s6 ++ rest)))))))))))) =
      some ((s1, s2, s3, s4, s5, s6), rest) := by
  simp [pLAids, pStrField_append s1 h1, pStrField_append s2 h2, pStrField_append s3 h3,
    pStrField_append s4 h4, pStrField_append s5 h5, pStrField_append s6 h6]

theorem pLAinfos_append (p : PersonalInfo) (f : FinancialInfo)
    (h1 : plainS p.Firstname = true) (h2 : plainS p.Lastname = true)
    (h3 : plainS p.DOB = true) (h4 : plainS p.Email = true)
    (h5 : plainS p.Mobile = true) (rest : List Char) :
    pLAinfos (litPers ++ (piChars p ++ (litFin ++ (fiChars f ++ rest)))) =
      some ((p, f), rest) := by
  simp [pLAinfos, dropLit_append, pPI_piChars p h1 h2 h3 h4 h5, pFI_fiChars f]

theorem pLAamounts_append (s7 : String) (n1 n2 n3 : Int) (h7 : plainS s7 = true)
    (rest : List Char) (hrest : headNotDigit rest = true) :
    pLAamounts (litStatus ++ (quoteChars s7 ++ (litReq ++ (intChars n1 ++
      (litFair ++ (intChars n2 ++ (litAppr ++ (intChars n3 ++ rest)))))))) =
      some ((s7, n1, n2, n3), rest) := by
  simp [pLAamounts, pStrField_append s7 h7, pIntField_append,
    headNotDigit_litFair, headNotDigit_litAppr, hrest]

theorem pLAtail_append (s8 s9 : String) (h8 : plainS s8 = true) (h9 : plainS s9 = true)
    (rest : List Char) :
    pLAtail (litRev ++ (quoteChars s8 ++ (litLast ++ (quoteChars s9 ++ (litRB ++ rest))))) =
      some ((s8, s9), rest) := by
  simp [pLAtail, pStrField_append s8 h8, pStrField_append s9 h9, dropLit_append]

/-- All string fields of a `PersonalInfo` are in the verbatim fragment. -/
def plainPI (p : PersonalInfo) : Bool :=
  plainS p.Firstname && plainS p.Lastname && plainS p.DOB && plainS p.Email && plainS p.Mobile

/-- All string fields of a `LoanApplication` are in the verbatim fragment. -/
def plainRecord (r : LoanApplication) : Bool :=
  plainS r.ID && plainS r.PropertyID && plainS r.LandID && plainS r.PermitID &&
    plainS r.BuyerID && plainS r.SalesContractID && plainPI r.PersonalInfo &&
    plainS r.Status && plainS r.ReviewerID && plainS r.LastModifiedDate

theorem pLA_laChars (r : LoanApplication) (h : plainRecord r = true) (rest : List Char) :
    pLA (laChars r ++ rest) = some (r, rest) := by
  simp only [plainRecord, plainPI, Bool.and_eq_true] at h
  obtain ⟨⟨⟨⟨⟨⟨⟨⟨⟨h1, h2⟩, h3⟩, h4⟩, h5⟩, h6⟩, ⟨⟨⟨⟨hp1, hp2⟩, hp3⟩, hp4⟩, hp5⟩⟩, h7⟩, h8⟩, h9⟩ := h
  simp [pLA, laChars, List.append_assoc,
    pLAids_append r.ID r.PropertyID r.LandID r.PermitID r.BuyerID r.SalesContractID
      h1 h2 h3 h4 h5 h6,
    pLAinfos_append r.PersonalInfo r.FinancialInfo hp1 hp2 hp3 hp4 hp5,
    pLAamounts_append r.Status r.RequestedAmount r.FairMarketValue r.ApprovedAmount h7,
    headNotDigit_litRev,
    pLAtail_append r.ReviewerID r.LastModifiedDate h8 h9]

theorem unmarshal_marshal (r : LoanApplication) (h : plainRecord r = true) :
    unmarshal (marshal r) = some r := by
  have hp := pLA_laChars r h []
  rw [List.append_nil] at hp
  simp [unmarshal, marshal, hp]

/-! ## The Ledger Gateway and the chaincode stub

The Hyperledger shim is an external collaborator, not part of this
repository.  Its contract is modelled from the spec (section 4.3):
`get(key) -> bytes | NotFound`, `put(key, value) -> ok | WriteFailed`,
`emitEvent(channel, payload) -> ok | WriteFailed`,
`getCredentialAttribute(name) -> bytes | NotFound`.  Go byte slices and
strings are both modelled as `String`; `[]byte(s)` / `string(b)` round-trip
exactly, so the conversion is the identity here. -/

/-- A Go `error` value as the handlers produce and propagate them. -/
inductive GoError where
  /-- The gateway reports that no value exists under the key. -/
  | notFound (key : String)
  /-- The gateway reports a failed write (a `put` or event emission). -/
  | writeFailed (text : String)
  /-- An error built by `errors.New`. -/
  | msg (text : String)
deriving DecidableEq

/-- Modelled from the spec: rendering of a gateway error as Go's
`err.Error()` string (the spec fixes only which errors exist, not their
text; the text is never load-bearing in any theorem below). -/
def GoError.errorText : GoError → String
  | .notFound key => "no value found for key " ++ key
  | .writeFailed text => text
  | .msg text => text

/-- State visible to the chaincode through the stub: the ledger key space,
failure switches for the two fallible write operations, the caller's
credential attributes, and the events emitted so far. -/
structure StubState where
  store : String → Option String
  putFail : Option GoError
  eventFail : Option GoError
  certAttr : String → Option String
  events : List (String × String)

/-- Modelled from the spec: the gateway's `get` (spec section 4.3,
`get(key) -> bytes | NotFound`). -/
def goGetState (st : StubState) (key : String) : Except GoError String :=
  match st.store key with
  | some v => .ok v
  | none => .error (.notFound key)

/-- Modelled from the spec: the gateway's `put` (spec section 4.3,
`put(key, value) -> ok | WriteFailed`); `putFail` is the failure switch. -/
def goPutState (st : StubState) (key value : String) : Except GoError StubState :=
  match st.putFail with
  | some e => .error e
  | none => .ok { st with store := fun k => if k = key then some value else st.store k }

/-- Modelled from the spec: the gateway's `emitEvent` (spec section 4.3,
`emitEvent(channel, payload) -> ok | WriteFailed`); `eventFail` is the
failure switch. -/
def goSetEvent (st : StubState) (channel payload : String) : Except GoError StubState :=
  match st.eventFail with
  | some e => .error e
  | none => .ok { st with events := st.events ++ [(channel, payload)] }

/-- Modelled from the spec: the gateway's credential-attribute accessor
(spec section 4.3, `getCredentialAttribute(name) -> bytes | NotFound`). -/
def goReadCertAttribute (st : StubState) (name : String) : Except GoError String :=
  match st.certAttr name with
  | some v => .ok v
  | none => .error (.notFound name)

/-! ## The handlers (src/main.go lines 57-196) -/

/-- GetCertAttribute (src/main.go lines 188-196): wraps a gateway failure in
an `errors.New` message and returns the attribute bytes as a string. -/
def getCertAttribute (st : StubState) (attributeName : String) : Except GoError String :=
  match goReadCertAttribute st attributeName with
  | .error err =>
      .error (.msg ("Couldn\x27t get attribute " ++ attributeName ++ ". Error: " ++ err.errorText))
  | .ok attr => .ok attr

/-- The event payload CreateLoanApplication builds at src/main.go line 115. -/
def creationPayload (loanAppID : String) : String :=
  "\x7beventType: \x27loanApplicationCreation\x27, description: \x27" ++ loanAppID ++
    " Successfully created\x27\x7d"

/-- The event payload UpdateLoanApplication builds at src/main.go line 177. -/
def updatePayload (loanAppID : String) : String :=
  "\x7beventType: \x27loanApplicationUpdate\x27, description: \x27" ++ loanAppID ++
    " Successfully updated\x27\x7d"

/-- CreateLoanApplication (src/main.go lines 98-123).  The result pairs the
Go return value `([]byte, error)` — modelled as `Except GoError (Option String)`,
since the source never returns both sides non-nil — with the stub state after
the call. -/
def createLoanApplication (args : List String) (st : StubState) :
    Except GoError (Option String) × StubState :=
  match args with
  | loanAppID :: loanAppInput :: _ =>
    (match goPutState st loanAppID loanAppInput with
     | .error err => (.error err, st)
     | .ok st1 =>
       match goSetEvent st1 "evtSender" (creationPayload loanAppID) with
       | .error err => (.error err, st1)
       | .ok st2 => (.ok none, st2))
  | _ => (.error (.msg "Expected at least 2 arguments"), st)

/-- GetLoanApplication (src/main.go lines 126-141): read-only, so no state is
returned. -/
def getLoanApplication (args : List String) (st : StubState) :
    Except GoError (Option String) :=
  match args with
  | loanAppId :: _ =>
    (match goGetState st loanAppId with
     | .error err => .error err
     | .ok bytes => .ok (some bytes))
  | [] => .error (.msg "Missing loan application ID")

/-- UpdateLoanApplication (src/main.go lines 144-185).  Three slips in the
source are modelled by their evident intent: line 155 reads `loanAppId` where
the declared variable is `loanAppID`, and line 160 names the type
`loanApplication` where the declared type is `LoanApplication` (both Go
compile errors).  Deliberately preserved: the `json.Unmarshal` error of line
161 is never checked — `err` is overwritten by `json.Marshal`'s result at
line 164 before the check at line 166 — so a decode failure leaves the
zero-valued record (Go populates no field of it on inputs rejected at the
first byte, which is the only failing shape any theorem below evaluates) and
the handler proceeds; `json.Marshal` itself cannot fail for this type, so the
line-166 check is dead. -/
def updateLoanApplication (args : List String) (st : StubState) :
    Except GoError (Option String) × StubState :=
  match args with
  | loanAppID :: status :: _ =>
    (match goGetState st loanAppID with
     | .error err => (.error err, st)
     | .ok laBytes =>
       let loanApplication := (unmarshal laBytes).getD zeroLoanApplication
       let laBytes1 := marshal { loanApplication with Status := status }
       match goPutState st loanAppID laBytes1 with
       | .error err => (.error err, st)
       | .ok st1 =>
         match goSetEvent st1 "evtSender" (updatePayload loanAppID) with
         | .error err => (.error err, st1)
         | .ok st2 => (.ok none, st2))
  | _ => (.error (.msg "Expected at least 2 arguments for loan application update"), st)

/-- The value Go's `username, _ := GetCertAttribute(stub, name)` binds: the
returned string, which is `""` whenever the attribute read failed. -/
def certAttrOrEmpty (st : StubState) (name : String) : String :=
  match getCertAttribute st name with
  | .ok s => s
  | .error _ => ""

/-- Query (src/main.go lines 62-67): dispatches only `GetLoanApplication`
and returns `nil, nil` for every other function name. -/
def query (function : String) (args : List String) (st : StubState) :
    Except GoError (Option String) :=
  if function = "GetLoanApplication" then getLoanApplication args st else .ok none

/-- Invoke (src/main.go lines 70-79): dispatches only
`CreateLoanApplication`.  For any other function name the Go source simply
has no return statement (a Go compile error — the function body ends after
the single `if`), modelled as `none`.  Line 77's `errors.Name` (undefined in
Go) is modelled by its evident intent, `errors.New`. -/
def invoke (function : String) (args : List String) (st : StubState) :
    Option (Except GoError (Option String) × StubState) :=
  if function = "CreateLoanApplication" then
    let username := certAttrOrEmpty st "username"
    let role := certAttrOrEmpty st "role"
    if role = "Bank_Home_Loan_Admin" then some (createLoanApplication args st)
    else
      some ((.error (.msg (username ++ " with role " ++ role ++
        " does not have correct permissions")), st))
  else none

/-! ## Concrete states and records used by the witnesses -/

/-- A fresh stub: empty ledger, no failure switches, no credential. -/
def stEmpty : StubState := ⟨fun _ => none, none, none, fun _ => none, []⟩

/-- A stub whose caller holds the admin role credential. -/
def stAuth : StubState :=
  ⟨fun _ => none, none, none,
    fun a => if a = "role" then some "Bank_Home_Loan_Admin"
      else if a = "username" then some "alice" else none, []⟩

/-- A stub whose caller holds a non-admin role credential. -/
def stBadRole : StubState :=
  ⟨fun _ => none, none, none,
    fun a => if a = "role" then some "Loan_Officer"
      else if a = "username" then some "alice" else none, []⟩

/-- A stub on which event emission fails while writes succeed. -/
def stEvtFail : StubState :=
  ⟨fun _ => none, none, some (.writeFailed "event emission failed"), fun _ => none, []⟩

/-- A sample well-formed loan application. -/
def sampleRecord : LoanApplication :=
  ⟨"LA1", "P1", "L1", "PM1", "B1", "SC1",
    ⟨"Ada", "Lovelace", "1815-12-10", "ada.example.com", "0700"⟩,
    ⟨2500, 800, 100, 250⟩, "Submitted", 400000, 450000, 0, "R1", ""⟩

/-- A stub whose ledger holds the encoded sample record under "LA1". -/
def stWithRecord : StubState :=
  ⟨fun k => if k = "LA1" then some (marshal sampleRecord) else none, none, none,
    fun _ => none, []⟩

/-- Prepending input cannot destroy a substring occurrence. -/
theorem containsSeq_prepend (p m s : List Char) (h : containsSeq m s = true) :
    containsSeq m (p ++ s) = true := by
  induction p with
  | nil => simpa using h
  | cons c cs ih => simp [containsSeq, ih]

/-- Fields of a `LoanApplication` record other than `Status` are unchanged,
and `Status` carries the new value. -/
def statusOnly (r r2 : LoanApplication) (status : String) : Prop :=
  r2.ID = r.ID ∧ r2.PropertyID = r.PropertyID ∧ r2.LandID = r.LandID ∧
    r2.PermitID = r.PermitID ∧ r2.BuyerID = r.BuyerID ∧
    r2.SalesContractID = r.SalesContractID ∧ r2.PersonalInfo = r.PersonalInfo ∧
    r2.FinancialInfo = r.FinancialInfo ∧ r2.RequestedAmount = r.RequestedAmount ∧
    r2.FairMarketValue = r.FairMarketValue ∧ r2.ApprovedAmount = r.ApprovedAmount ∧
    r2.ReviewerID = r.ReviewerID ∧ r2.LastModifiedDate = r.LastModifiedDate ∧
    r2.Status = status

/-! ## The claims -/

/-- C1: Read (GetLoanApplication) on an id with no ledger record fails with
the gateway's NotFound error and never returns a successful empty result.
The gateway's `get` is modelled from spec section 4.3. -/
theorem C1_read_nonexistent_fails (id : String) (st : StubState) (h : st.store id = none) :
    getLoanApplication [id] st = .error (GoError.notFound id) := by
  simp [getLoanApplication, goGetState, h]

theorem C1_witness :
    stEmpty.store "LA1" = none ∧
      getLoanApplication ["LA1"] stEmpty = .error (GoError.notFound "LA1") :=
  ⟨rfl, C1_read_nonexistent_fails "LA1" stEmpty rfl⟩

/-- C2: Update (UpdateLoanApplication) on an id with no ledger record fails
with the read error propagated from the gateway and returns the state
unchanged — no write happens. -/
theorem C2_update_nonexistent_no_write (id status : String) (st : StubState)
    (h : st.store id = none) :
    updateLoanApplication [id, status] st = (.error (GoError.notFound id), st) := by
  simp [updateLoanApplication, goGetState, h]

theorem C2_witness :
    stEmpty.store "LA2" = none ∧
      updateLoanApplication ["LA2", "Approved"] stEmpty =
        (.error (GoError.notFound "LA2"), stEmpty) :=
  ⟨rfl, C2_update_nonexistent_no_write "LA2" "Approved" stEmpty rfl⟩

/-- C4: an authorized, successful Create(id, record) followed by Read(id)
through the dispatch entry points returns exactly the byte string supplied
to Create. -/
theorem C4_create_read_roundtrip (id rec : String) (st : StubState)
    (hrole : st.certAttr "role" = some "Bank_Home_Loan_Admin")
    (hput : st.putFail = none) (hevt : st.eventFail = none) :
    ∃ st2, invoke "CreateLoanApplication" [id, rec] st = some (.ok none, st2) ∧
      query "GetLoanApplication" [id] st2 = .ok (some rec) := by
  refine ⟨{ st with
    store := (fun k => if k = id then some rec else st.store k),
    events := st.events ++ [("evtSender", creationPayload id)] }, ?_, ?_⟩
  · simp [invoke, certAttrOrEmpty, getCertAttribute, goReadCertAttribute, hrole,
      createLoanApplication, goPutState, hput, goSetEvent, hevt]
  · simp [query, getLoanApplication, goGetState]

theorem C4_witness :
    stAuth.certAttr "role" = some "Bank_Home_Loan_Admin" ∧ stAuth.putFail = none ∧
      stAuth.eventFail = none ∧
      ∃ st2, invoke "CreateLoanApplication" ["LA1", "recordbytes"] stAuth =
          some (.ok none, st2) ∧
        query "GetLoanApplication" ["LA1"] st2 = .ok (some "recordbytes") :=
  ⟨rfl, rfl, rfl, C4_create_read_roundtrip "LA1" "recordbytes" stAuth rfl rfl rfl⟩

/-- C5: a successful Update(id, status) on a previously created well-formed
record re-stores the record with only `Status` changed; every other field is
unchanged. -/
theorem C5_update_changes_only_status (id status : String) (r : LoanApplication)
    (st : StubState) (hstore : st.store id = some (marshal r))
    (hr : plainRecord r = true) (hput : st.putFail = none) (hevt : st.eventFail = none) :
    ∃ st2, updateLoanApplication [id, status] st = (.ok none, st2) ∧
      st2.store id = some (marshal { r with Status := status }) ∧
      statusOnly r ({ r with Status := status }) status := by
  refine ⟨{ st with
    store := (fun k => if k = id then some (marshal { r with Status := status }) else st.store k),
    events := st.events ++ [("evtSender", updatePayload id)] }, ?_, ?_, ?_⟩
  · simp [updateLoanApplication, goGetState, hstore, unmarshal_marshal r hr,
      goPutState, hput, goSetEvent, hevt]
  · simp
  · exact ⟨rfl, rfl, rfl, rfl, rfl, rfl, rfl, rfl, rfl, rfl, rfl, rfl, rfl, rfl⟩

theorem C5_witness :
    stWithRecord.store "LA1" = some (marshal sampleRecord) ∧
      plainRecord sampleRecord = true ∧ stWithRecord.putFail = none ∧
      stWithRecord.eventFail = none ∧
      ∃ st2, updateLoanApplication ["LA1", "Approved"] stWithRecord = (.ok none, st2) ∧
        st2.store "LA1" = some (marshal { sampleRecord with Status := "Approved" }) ∧
        statusOnly sampleRecord ({ sampleRecord with Status := "Approved" }) "Approved" :=
  ⟨rfl, by decide, rfl, rfl,
    C5_update_changes_only_status "LA1" "Approved" sampleRecord stWithRecord rfl
      (by decide) rfl rfl⟩

/-- C6: Invoke of CreateLoanApplication by a caller whose role credential is
not `Bank_Home_Loan_Admin` — including when reading the attribute failed, in
which case Go's discarded-error binding leaves the empty string — fails with
the permission error, whose message contains the caller's username and role,
and returns the state unchanged (no write). -/
theorem C6_create_permission_denied (args : List String) (st : StubState)
    (hrole : certAttrOrEmpty st "role" ≠ "Bank_Home_Loan_Admin") :
    invoke "CreateLoanApplication" args st =
      some ((.error (.msg (certAttrOrEmpty st "username" ++ " with role " ++
        certAttrOrEmpty st "role" ++ " does not have correct permissions")), st)) ∧
    containsSeq (certAttrOrEmpty st "username").data
      (certAttrOrEmpty st "username" ++ " with role " ++ certAttrOrEmpty st "role" ++
        " does not have correct permissions").data = true ∧
    containsSeq (certAttrOrEmpty st "role").data
      (certAttrOrEmpty st "username" ++ " with role " ++ certAttrOrEmpty st "role" ++
        " does not have correct permissions").data = true := by
  refine ⟨by simp [invoke, hrole], ?_, ?_⟩
  · rw [show (certAttrOrEmpty st "username" ++ " with role " ++ certAttrOrEmpty st "role" ++
      " does not have correct permissions").data =
      (certAttrOrEmpty st "username").data ++ (" with role ".data ++
        ((certAttrOrEmpty st "role").data ++ " does not have correct permissions".data)) by
      simp [String.data_append]]
    exact containsSeq_append_left _ _
  · rw [show (certAttrOrEmpty st "username" ++ " with role " ++ certAttrOrEmpty st "role" ++
      " does not have correct permissions").data =
      (certAttrOrEmpty st "username").data ++ (" with role ".data ++
        ((certAttrOrEmpty st "role").data ++ " does not have correct permissions".data)) by
      simp [String.data_append]]
    exact containsSeq_prepend _ _ _ (containsSeq_prepend _ _ _ (containsSeq_append_left _ _))

theorem C6_witness :
    certAttrOrEmpty stBadRole "role" ≠ "Bank_Home_Loan_Admin" ∧
      (invoke "CreateLoanApplication" ["LA1", "recordbytes"] stBadRole =
        some ((.error (.msg (certAttrOrEmpty stBadRole "username" ++ " with role " ++
          certAttrOrEmpty stBadRole "role" ++ " does not have correct permissions")),
          stBadRole)) ∧
      containsSeq (certAttrOrEmpty stBadRole "username").data
        (certAttrOrEmpty stBadRole "username" ++ " with role " ++
          certAttrOrEmpty stBadRole "role" ++ " does not have correct permissions").data =
        true ∧
      containsSeq (certAttrOrEmpty stBadRole "role").data
        (certAttrOrEmpty stBadRole "username" ++ " with role " ++
          certAttrOrEmpty stBadRole "role" ++ " does not have correct permissions").data =
        true) :=
  ⟨by decide, C6_create_permission_denied ["LA1", "recordbytes"] stBadRole (by decide)⟩

/-- C7: the claim says an UpdateLoanApplication invocation is dispatched to
the update operation, but neither dispatch entry point reaches it: Invoke
matches only "CreateLoanApplication" (and has no return statement for any
other function name — a Go compile error), and Query matches only
"GetLoanApplication" and returns nil for everything else.  The third
conjunct shows the operation itself succeeds on this very state when called
directly, so the failure is purely one of dispatch. -/
theorem C7_update_not_dispatched :
    invoke "UpdateLoanApplication" ["LA1", "Approved"] stWithRecord = none ∧
    query "UpdateLoanApplication" ["LA1", "Approved"] stWithRecord = .ok none ∧
    (updateLoanApplication ["LA1", "Approved"] stWithRecord).1 = .ok none :=
  ⟨rfl, rfl, rfl⟩

/-- C8: when the ledger write succeeds but the subsequent event emission
fails, Create returns the failure while the record stays persisted — no
rollback or compensating delete exists. -/
theorem C8_event_failure_no_rollback (id rec : String) (e : GoError) (st : StubState)
    (hput : st.putFail = none) (hevt : st.eventFail = some e) :
    ∃ st1, createLoanApplication [id, rec] st = (.error e, st1) ∧
      st1.store id = some rec := by
  refine ⟨{ st with
    store := (fun k => if k = id then some rec else st.store k) }, ?_, ?_⟩
  · simp [createLoanApplication, goPutState, hput, goSetEvent, hevt]
  · simp

theorem C8_witness :
    stEvtFail.putFail = none ∧
      stEvtFail.eventFail = some (.writeFailed "event emission failed") ∧
      ∃ st1, createLoanApplication ["LA1", "recordbytes"] stEvtFail =
          (.error (.writeFailed "event emission failed"), st1) ∧
        st1.store "LA1" = some "recordbytes" :=
  ⟨rfl, rfl, C8_event_failure_no_rollback "LA1" "recordbytes"
    (.writeFailed "event emission failed") stEvtFail rfl rfl⟩

/-- C9 counterexample: the claim says the payload is structured with a
`type` field naming the event kind; the payload a successful Create actually
emits is the fixed pseudo-JSON text below, which contains no `"type"` key —
indeed no double-quote character at all — so it has no `type` field (the
declared `customEvent` struct with `type`/`description` tags at src/main.go
lines 48-51 is never used). -/
theorem C9_payload_has_no_type_field :
    (createLoanApplication ["LA1", "RB"] stEmpty).2.events =
      [("evtSender", creationPayload "LA1")] ∧
    creationPayload "LA1" =
      "\x7beventType: \x27loanApplicationCreation\x27, description: \x27LA1 Successfully created\x27\x7d" ∧
    containsSeq "\x22type\x22".data (creationPayload "LA1").data = false ∧
    containsSeq "\x22".data (creationPayload "LA1").data = false :=
  ⟨rfl, rfl, by decide, by decide⟩

/-- C9 amended: every event a successful Create or Update emits goes to
channel `evtSender`; its payload is the fixed text built at src/main.go
lines 115/177, whose `eventType` entry is `loanApplicationCreation`
(Create) or `loanApplicationUpdate` (Update) and whose description text
contains the affected id. -/
theorem C9_events_on_evtSender (id rec status b : String) (st st2 : StubState)
    (hput : st.putFail = none) (hevt : st.eventFail = none)
    (h2 : st2.store id = some b) (h2p : st2.putFail = none) (h2e : st2.eventFail = none) :
    (createLoanApplication [id, rec] st).2.events =
      st.events ++ [("evtSender", creationPayload id)] ∧
    (updateLoanApplication [id, status] st2).2.events =
      st2.events ++ [("evtSender", updatePayload id)] ∧
    containsSeq id.data (creationPayload id).data = true ∧
    containsSeq id.data (updatePayload id).data = true := by
  refine ⟨?_, ?_, ?_, ?_⟩
  · simp [createLoanApplication, goPutState, hput, goSetEvent, hevt]
  · simp [updateLoanApplication, goGetState, h2, goPutState, h2p, goSetEvent, h2e]
  · rw [show (creationPayload id).data =
      "\x7beventType: \x27loanApplicationCreation\x27, description: \x27".data ++
        (id.data ++ " Successfully created\x27\x7d".data) by
      simp [creationPayload, String.data_append]]
    exact containsSeq_prepend _ _ _ (containsSeq_append_left _ _)
  · rw [show (updatePayload id).data =
      "\x7beventType: \x27loanApplicationUpdate\x27, description: \x27".data ++
        (id.data ++ " Successfully updated\x27\x7d".data) by
      simp [updatePayload, String.data_append]]
    exact containsSeq_prepend _ _ _ (containsSeq_append_left _ _)

theorem C9_witness :
    stEmpty.putFail = none ∧ stEmpty.eventFail = none ∧
      stWithRecord.store "LA1" = some (marshal sampleRecord) ∧
      stWithRecord.putFail = none ∧ stWithRecord.eventFail = none ∧
      ((createLoanApplication ["LA1", "RB"] stEmpty).2.events =
        stEmpty.events ++ [("evtSender", creationPayload "LA1")] ∧
      (updateLoanApplication ["LA1", "Approved"] stWithRecord).2.events =
        stWithRecord.events ++ [("evtSender", updatePayload "LA1")] ∧
      containsSeq "LA1".data (creationPayload "LA1").data = true ∧
      containsSeq "LA1".data (updatePayload "LA1").data = true) :=
  ⟨rfl, rfl, rfl, rfl, rfl,
    C9_events_on_evtSender "LA1" "RB" "Approved" (marshal sampleRecord)
      stEmpty stWithRecord rfl rfl rfl rfl rfl⟩

/-- C10: Query with any function name other than GetLoanApplication returns
a successful empty result (`nil, nil`) for every argument list and every
state — it consults nothing and reports no unknown-function error. -/
theorem C10_query_unknown_empty_success (function : String) (args : List String)
    (st : StubState) (h : function ≠ "GetLoanApplication") :
    query function args st = .ok none := by
  simp [query, h]

theorem C10_witness :
    ("CreateLoanApplication" : String) ≠ "GetLoanApplication" ∧
      query "CreateLoanApplication" ["LA1"] stWithRecord = .ok none :=
  ⟨by decide, C10_query_unknown_empty_success "CreateLoanApplication" ["LA1"]
    stWithRecord (by decide)⟩

end Chaincode
